import Mathlib

/-!
Shallow embedding of the alignment-resolution, normalization and validation
logic of the Editor.js paragraph block plugin (source file src/src/index.js).

JavaScript values relevant to the plugin are modelled by the inductive type
JSVal: the primitives undefined, null, booleans, numbers and strings, and a
record with the two fields the plugin reads (text and align). Reading a field
of undefined or null throws a TypeError in JavaScript; field access is
therefore modelled in the Except monad, with Except.error standing for a
thrown exception. JavaScript truthiness and the typeof operator are modelled
explicitly, because the source branches on both.

The block configuration is modelled by the structure Config with the fields
the source reads: alignTypes (an optional array of strings; note that in
JavaScript an empty array is truthy, hence Option (List String) with
some [] distinct from none), defaultAlignType (an optional string; the
source tests it for truthiness, and an empty string is falsy), and
preserveBlank (the source applies Boolean conversion, so a Bool).

The console.warn side effect of userDefaultAlignType is modelled by
returning a pair of the value and a Bool that is true exactly when the
warning is emitted.
-/

namespace EditorjsParagraph

/-- Model of the JavaScript values the plugin manipulates. Records are
restricted to the two fields the plugin ever reads. -/
inductive JSVal where
  | undefv : JSVal
  | nullv : JSVal
  | boolv (b : Bool) : JSVal
  | num (n : Int) : JSVal
  | str (s : String) : JSVal
  | obj (text align : JSVal) : JSVal
  deriving Repr, DecidableEq

/-- Model of the JavaScript typeof operator. Note typeof null is the string
object, which is what lets null slip through the guard inside the
normalization function of the source. -/
def typeofJS : JSVal → String
  | .undefv => "undefined"
  | .nullv => "object"
  | .boolv _ => "boolean"
  | .num _ => "number"
  | .str _ => "string"
  | .obj _ _ => "object"

/-- Model of JavaScript truthiness for the modelled values. -/
def truthy : JSVal → Bool
  | .undefv => false
  | .nullv => false
  | .boolv b => b
  | .num n => n != 0
  | .str s => s != ""
  | .obj _ _ => true

/-- The two record fields the plugin reads. -/
inductive JSField where
  | text : JSField
  | align : JSField
  deriving Repr, DecidableEq

/-- Model of JavaScript property access v.f: throws a TypeError on undefined
and null, yields undefined on primitives (which have no such property), and
projects the field on records. -/
def getField : JSVal → JSField → Except Unit JSVal
  | .undefv, _ => .error ()
  | .nullv, _ => .error ()
  | .obj t _, .text => .ok t
  | .obj _ a, .align => .ok a
  | _, _ => .ok .undefv

/-- Model of JavaScript strict equality a === v where the left operand is
known to be a string (the shape used in the find callbacks of the source). -/
def strictEqStr (a : String) (v : JSVal) : Bool :=
  match v with
  | .str b => a == b
  | _ => false

/-- The block configuration, with the fields the source reads and JavaScript
truthiness folded into the field types as explained in the header comment. -/
structure Config where
  alignTypes : Option (List String) := none
  defaultAlignType : Option String := none
  preserveBlank : Bool := false
  deriving Repr, DecidableEq

/-- Source: static get ALIGN_TYPES, the canonical universe of alignment
types, in canonical order. -/
def ALIGN_TYPES : List String := ["left", "center", "right", "justify"]

/-- Source: static get DEFAULT_ALIGN_TYPE. -/
def DEFAULT_ALIGN_TYPE : String := "left"

/-- Source: get availableAlignTypes. If config.alignTypes is truthy (any
array, including the empty one), filter the canonical universe to the
members the configured array includes; otherwise the full canonical
universe. -/
def availableAlignTypes (cfg : Config) : List String :=
  match cfg.alignTypes with
  | some ts => ALIGN_TYPES.filter (fun align => ts.contains align)
  | none => ALIGN_TYPES

/-- Source: get userDefaultAlignType, together with whether console.warn is
called (the second component). If config.defaultAlignType is truthy (a
nonempty string), look it up in availableAlignTypes; a truthy find result is
returned as is, otherwise the warning is emitted and the canonical default
is returned. If config.defaultAlignType is falsy the canonical default is
returned silently. -/
def userDefaultAlignTypeWarn (cfg : Config) : String × Bool :=
  match cfg.defaultAlignType with
  | some d =>
    if d ≠ "" then
      match (availableAlignTypes cfg).find? (fun align => align == d) with
      | some userSpecified =>
        if userSpecified ≠ "" then (userSpecified, false)
        else (DEFAULT_ALIGN_TYPE, true)
      | none => (DEFAULT_ALIGN_TYPE, true)
    else (DEFAULT_ALIGN_TYPE, false)
  | none => (DEFAULT_ALIGN_TYPE, false)

/-- The value component of userDefaultAlignTypeWarn. -/
def userDefaultAlignType (cfg : Config) : String :=
  (userDefaultAlignTypeWarn cfg).1

/-- Source: get userPreserveBlank, Boolean(config.preserveBlank). -/
def userPreserveBlank (cfg : Config) : Bool :=
  cfg.preserveBlank

/-- The result of normalization: the text and align fields the source
stores in this._data. Both are raw JavaScript values (the source performs
no type coercion beyond the || fallbacks). -/
structure NormData where
  text : JSVal
  align : JSVal
  deriving Repr, DecidableEq

/-- Source: _normalizeData. If typeof data is not the string object, data is
replaced by the empty record; then newData.text is data.text when truthy and
the empty string otherwise, and newData.align is data.align when truthy and
userDefaultAlignType otherwise. Reading a field of null (whose typeof is
object, so it survives the guard) throws. -/
def _normalizeData (cfg : Config) (data : JSVal) : Except Unit NormData := do
  let data := if typeofJS data ≠ "object" then JSVal.obj .undefv .undefv else data
  let t ← getField data .text
  let a ← getField data .align
  pure { text := if truthy t then t else .str "",
         align := if truthy a then a else .str (userDefaultAlignType cfg) }

/-- Source: get currentAlignType. Finds the element of availableAlignTypes
strictly equal to this._data.align; a falsy result (not found, in practice)
is replaced by userDefaultAlignType. -/
def currentAlignType (cfg : Config) (dataAlign : JSVal) : String :=
  match (availableAlignTypes cfg).find? (fun align => strictEqStr align dataAlign) with
  | some alignType =>
    if alignType ≠ "" then alignType else userDefaultAlignType cfg
  | none => userDefaultAlignType cfg

/-- The record returned by save. -/
structure SavedData where
  text : String
  align : String
  deriving Repr, DecidableEq

/-- Source: save(blockContent): the innerHTML of the rendered element
together with currentAlignType computed from the stored align value. -/
def save (cfg : Config) (dataAlign : JSVal) (blockContentInnerHTML : String) : SavedData :=
  { text := blockContentInnerHTML, align := currentAlignType cfg dataAlign }

/-- Whitespace characters removed by the JavaScript trim method, restricted
to the ASCII ones (space, tab, line feed, carriage return, vertical tab,
form feed), which suffice for the data this plugin sees. -/
def isJSWhitespace (c : Char) : Bool :=
  c == ' ' || c == '\t' || c == '\n' || c == '\r' || c == '\x0b' || c == '\x0c'

/-- Model of the JavaScript string trim method: removes leading and trailing
whitespace characters, leaving the middle untouched. -/
def trimJS (s : String) : String :=
  String.mk (((s.data.dropWhile isJSWhitespace).reverse.dropWhile isJSWhitespace).reverse)

/-- Source: validate(savedData). When userPreserveBlank is false the result
is savedData.text.trim() compared against the empty string; accessing .text
on undefined or null throws, and so does calling .trim() on a value that is
not a string. When userPreserveBlank is true the result is true without
touching savedData. -/
def validate (cfg : Config) (savedData : JSVal) : Except Unit Bool :=
  if !userPreserveBlank cfg then do
    let t ← getField savedData .text
    match t with
    | .str s => pure (trimJS s != "")
    | _ => .error ()
  else
    pure true

/-- One entry of the settings menu returned by renderSettings. The
onActivate closure calls _setAlignType with the alignment type of the entry;
activateAlign records that payload. The icon is host-rendered UI and is not
modelled. -/
structure SettingsEntry where
  label : String
  activateAlign : String
  isActive : Bool
  closeOnActivate : Bool
  toggle : String
  deriving Repr, DecidableEq

/-- Source: renderSettings. One entry per element of Paragraph.ALIGN_TYPES
(the full canonical universe), in canonical order, with isActive comparing
the type of each entry against currentAlignType. -/
def renderSettings (cfg : Config) (dataAlign : JSVal) : List SettingsEntry :=
  ALIGN_TYPES.map (fun align =>
    { label := align.capitalize,
      activateAlign := align,
      isActive := align == currentAlignType cfg dataAlign,
      closeOnActivate := true,
      toggle := "align" })

/-- The align field produced by normalize(save(normalize(d))) for a block
whose raw data is the record with fields t and align a, where the saved
text is the rendered innerHTML html. -/
def alignRoundTrip (cfg : Config) (t : JSVal) (a : String) (html : String) :
    Except Unit JSVal := do
  let n1 ← _normalizeData cfg (.obj t (.str a))
  let s := save cfg n1.align html
  let n2 ← _normalizeData cfg (.obj (.str s.text) (.str s.align))
  pure n2.align

/-! Helper lemmas shared by the claim theorems. -/

/-- Every member of the canonical universe is a nonempty string, hence
truthy in JavaScript. -/
theorem mem_ALIGN_TYPES_ne_empty {a : String} (h : a ∈ ALIGN_TYPES) : a ≠ "" := by
  simp [ALIGN_TYPES] at h
  rcases h with h | h | h | h <;> subst h <;> decide

/-- The effective allowed-types list is always a sublist of the canonical
universe, so it inherits the canonical order. -/
theorem availableAlignTypes_sublist (cfg : Config) :
    List.Sublist (availableAlignTypes cfg) ALIGN_TYPES := by
  unfold availableAlignTypes
  cases cfg.alignTypes with
  | none => exact List.Sublist.refl _
  | some ts => exact List.filter_sublist _

/-- Members of the effective allowed-types list are members of the
canonical universe. -/
theorem mem_availableAlignTypes_mem_canon {cfg : Config} {a : String}
    (h : a ∈ availableAlignTypes cfg) : a ∈ ALIGN_TYPES :=
  (availableAlignTypes_sublist cfg).subset h

/-- Finding the element equal to a given string in a list of strings yields
that string exactly when it is a member. -/
theorem find_beq_eq (l : List String) (s : String) :
    l.find? (fun a => a == s) = if s ∈ l then some s else none := by
  induction l with
  | nil => simp
  | cons x xs ih =>
    by_cases hx : x = s
    · subst hx
      simp [List.find?]
    · have hbeq : (x == s) = false := by simp [hx]
      have hsx : ¬s = x := fun h => hx h.symm
      simp [List.find?, hbeq, ih, List.mem_cons, hsx]

/-- Closed form of currentAlignType on string-valued stored alignments. -/
theorem currentAlignType_str (cfg : Config) (s : String) :
    currentAlignType cfg (.str s)
      = if s ∈ availableAlignTypes cfg then s else userDefaultAlignType cfg := by
  have hpred : (fun align => strictEqStr align (.str s)) = (fun align => align == s) := by
    funext align
    simp [strictEqStr]
  by_cases h : s ∈ availableAlignTypes cfg
  · have hne : s ≠ "" := mem_ALIGN_TYPES_ne_empty (mem_availableAlignTypes_mem_canon h)
    simp [currentAlignType, hpred, find_beq_eq, h, hne]
  · simp [currentAlignType, hpred, find_beq_eq, h]

/-- Closed form of userDefaultAlignTypeWarn: the configured default is
returned when it is a truthy string belonging to the effective allowed
types; a truthy configured default outside them triggers the warning and
falls back to the canonical default; a falsy or absent configured default
yields the canonical default silently. -/
theorem userDefaultAlignTypeWarn_eq (cfg : Config) :
    userDefaultAlignTypeWarn cfg
      = (match cfg.defaultAlignType with
         | some d =>
           if d = "" then (DEFAULT_ALIGN_TYPE, false)
           else if d ∈ availableAlignTypes cfg then (d, false)
           else (DEFAULT_ALIGN_TYPE, true)
         | none => (DEFAULT_ALIGN_TYPE, false)) := by
  cases hd : cfg.defaultAlignType with
  | none => simp [userDefaultAlignTypeWarn, hd]
  | some d =>
    by_cases hde : d = ""
    · subst hde
      simp [userDefaultAlignTypeWarn, hd]
    · by_cases hmem : d ∈ availableAlignTypes cfg
      · simp [userDefaultAlignTypeWarn, hd, hde, find_beq_eq, hmem]
      · simp [userDefaultAlignTypeWarn, hd, hde, find_beq_eq, hmem]

/-- The resolved default alignment is always a member of the canonical
universe (though not necessarily of the effective allowed types). -/
theorem userDefaultAlignType_mem (cfg : Config) :
    userDefaultAlignType cfg ∈ ALIGN_TYPES := by
  rw [userDefaultAlignType, userDefaultAlignTypeWarn_eq]
  cases cfg.defaultAlignType with
  | none =>
    show DEFAULT_ALIGN_TYPE ∈ ALIGN_TYPES
    decide
  | some d =>
    show (if d = "" then (DEFAULT_ALIGN_TYPE, false)
          else if d ∈ availableAlignTypes cfg then (d, false)
          else (DEFAULT_ALIGN_TYPE, true)).1 ∈ ALIGN_TYPES
    by_cases hde : d = ""
    · rw [if_pos hde]
      decide
    · rw [if_neg hde]
      by_cases hmem : d ∈ availableAlignTypes cfg
      · rw [if_pos hmem]
        exact mem_availableAlignTypes_mem_canon hmem
      · rw [if_neg hmem]
        decide

/-- The current alignment is always a member of the canonical universe. -/
theorem currentAlignType_mem (cfg : Config) (v : JSVal) :
    currentAlignType cfg v ∈ ALIGN_TYPES := by
  unfold currentAlignType
  cases hf : (availableAlignTypes cfg).find? (fun align => strictEqStr align v) with
  | none => exact userDefaultAlignType_mem cfg
  | some u =>
    have hu : u ∈ availableAlignTypes cfg := List.mem_of_find?_eq_some hf
    have hcanon : u ∈ ALIGN_TYPES := mem_availableAlignTypes_mem_canon hu
    show (if u ≠ "" then u else userDefaultAlignType cfg) ∈ ALIGN_TYPES
    by_cases hne : u = ""
    · rw [if_neg (fun h => h hne)]
      exact userDefaultAlignType_mem cfg
    · rw [if_pos hne]
      exact hcanon

/-- Binding a successful Except computation applies the continuation. -/
theorem except_bind_ok {α β : Type} (x : α) (f : α → Except Unit β) :
    (Except.ok x >>= f) = f x := rfl

/-- Normalization of a record input, in closed form. -/
theorem normalizeData_obj (cfg : Config) (t a : JSVal) :
    _normalizeData cfg (.obj t a)
      = .ok { text := if truthy t then t else .str "",
              align := if truthy a then a else .str (userDefaultAlignType cfg) } := rfl

/-! Claim theorems. -/

/-- C1 counterexample: the claimed invariants fail on the code. With
alignTypes configured as the array containing only the unknown string bogus,
the effective allowed-types set is empty, with no fallback to the full
canonical universe; with alignTypes configured as the array containing only
right, both the resolved effective default and the current alignment are
left, which is outside the effective allowed-types set. -/
theorem c1_counterexample :
    availableAlignTypes { alignTypes := some ["bogus"] } = [] ∧
    availableAlignTypes { alignTypes := some ["right"] } = ["right"] ∧
    userDefaultAlignType { alignTypes := some ["right"] }
      ∉ availableAlignTypes { alignTypes := some ["right"] } ∧
    currentAlignType { alignTypes := some ["right"] } .undefv
      ∉ availableAlignTypes { alignTypes := some ["right"] } := by
  decide

/-- C1 amended: the resolved effective default and the current alignment are
always members of the canonical universe, though not necessarily of the
effective allowed-types set; the effective allowed-types set is always a
sublist of the canonical universe, and equals the full canonical universe
whenever the configured alignTypes is absent — but a present alignTypes
whose intersection with the canonical universe is empty yields an empty
allowed-types set, not a fallback to the full universe. -/
theorem c1_invariants_amended (cfg : Config) (dataAlign : JSVal)
    (d : Option String) (p : Bool) :
    userDefaultAlignType cfg ∈ ALIGN_TYPES ∧
    currentAlignType cfg dataAlign ∈ ALIGN_TYPES ∧
    List.Sublist (availableAlignTypes cfg) ALIGN_TYPES ∧
    availableAlignTypes { alignTypes := none, defaultAlignType := d, preserveBlank := p }
      = ALIGN_TYPES :=
  ⟨userDefaultAlignType_mem cfg, currentAlignType_mem cfg dataAlign,
   availableAlignTypes_sublist cfg, rfl⟩

/-- C2: behavior of the code at the failing input. With alignTypes
configured as the array containing only left, the effective allowed-types
set is the singleton left, yet renderSettings still produces one entry per
member of the full canonical universe, including entries whose alignment
type lies outside the allowed set; only the isActive flags single out the
current alignment. The claim (and the README, which documents alignTypes as
the supported alignment options) requires entries drawn from the effective
allowed-types set only. -/
theorem c2_renderSettings_full_universe :
    availableAlignTypes { alignTypes := some ["left"] } = ["left"] ∧
    (renderSettings { alignTypes := some ["left"] } .undefv).map (fun e => e.activateAlign)
      = ["left", "center", "right", "justify"] ∧
    (renderSettings { alignTypes := some ["left"] } .undefv).map (fun e => e.isActive)
      = [true, false, false, false] := by
  decide

/-- C3: the current alignment equals the stored alignment exactly when the
stored alignment is a member of the effective allowed-types set, and equals
the resolved default otherwise; in particular, with alignTypes restricted
to left and right and stored align center, the current alignment is
left. -/
theorem c3_currentAlignType_rule (cfg : Config) (s : String) :
    currentAlignType cfg (.str s)
      = (if s ∈ availableAlignTypes cfg then s else userDefaultAlignType cfg) ∧
    currentAlignType { alignTypes := some ["left", "right"] } (.str "center") = "left" :=
  ⟨currentAlignType_str cfg s, by decide⟩

/-- C4: resolution of the configured default. A present configured default
(a truthy, that is nonempty, string — matching the guard in the source)
that belongs to the effective allowed-types set is returned without a
warning; a present configured default outside that set emits the warning
and yields the canonical default left; an absent or falsy configured
default yields left without a warning. The fallback is not re-validated
against the allowed set: with alignTypes restricted to right and configured
default center, the resolved default left lies outside the allowed set. -/
theorem c4_userDefaultAlignType_rule (cfg : Config) :
    userDefaultAlignTypeWarn cfg
      = (match cfg.defaultAlignType with
         | some d =>
           if d = "" then (DEFAULT_ALIGN_TYPE, false)
           else if d ∈ availableAlignTypes cfg then (d, false)
           else (DEFAULT_ALIGN_TYPE, true)
         | none => (DEFAULT_ALIGN_TYPE, false)) ∧
    DEFAULT_ALIGN_TYPE = "left" ∧
    userDefaultAlignTypeWarn { alignTypes := some ["right"], defaultAlignType := some "center" }
      = ("left", true) ∧
    userDefaultAlignType { alignTypes := some ["right"], defaultAlignType := some "center" }
      ∉ availableAlignTypes { alignTypes := some ["right"], defaultAlignType := some "center" } :=
  ⟨userDefaultAlignTypeWarn_eq cfg, rfl, by decide, by decide⟩

/-- C5: the effective allowed-types computation. An absent alignTypes
yields the full canonical universe in canonical order; a present alignTypes
yields the canonical universe filtered to the members of the configured
list, in canonical order (a sublist of the canonical universe), with
unknown entries silently dropped and no error raised. -/
theorem c5_availableAlignTypes_rule (d : Option String) (p : Bool) (l : List String) :
    availableAlignTypes { alignTypes := none, defaultAlignType := d, preserveBlank := p }
      = ["left", "center", "right", "justify"] ∧
    availableAlignTypes { alignTypes := some l, defaultAlignType := d, preserveBlank := p }
      = ["left", "center", "right", "justify"].filter (fun a => decide (a ∈ l)) ∧
    List.Sublist
      (availableAlignTypes { alignTypes := some l, defaultAlignType := d, preserveBlank := p })
      ALIGN_TYPES := by
  refine ⟨rfl, ?_, availableAlignTypes_sublist _⟩
  show ALIGN_TYPES.filter (fun align => l.contains align)
    = ["left", "center", "right", "justify"].filter (fun a => decide (a ∈ l))
  have hfun : (fun align => l.contains align) = (fun a : String => decide (a ∈ l)) := by
    funext a
    simp [List.elem_eq_mem]
  rw [hfun]
  rfl

/-- C6 counterexample: normalization does not replace a truthy non-string
text value by the empty string — a record whose text field is the number 5
normalizes with its text still the number 5, not the empty string — and a
null input, which is not a structured record yet has typeof object, throws
a TypeError instead of being treated as empty. -/
theorem c6_counterexample :
    _normalizeData {} (.obj (.num 5) .undefv)
      = .ok { text := .num 5, align := .str "left" } ∧
    JSVal.num 5 ≠ JSVal.str "" ∧
    _normalizeData {} .nullv = .error () :=
  ⟨rfl, by decide, rfl⟩

/-- C6 amended: for record inputs, the normalized text is the raw text
value when truthy and the empty string otherwise (no trimming or
sanitization), and the normalized align is the raw align value when truthy
and the resolved default otherwise; inputs whose typeof is not object
(undefined, booleans, numbers, strings) are treated as the empty record;
but a null input, whose typeof is object, escapes the guard and throws. -/
theorem c6_normalize_amended (cfg : Config) (t a : JSVal) (b : Bool) (n : Int) (s : String) :
    _normalizeData cfg (.obj t a)
      = .ok { text := if truthy t then t else .str "",
              align := if truthy a then a else .str (userDefaultAlignType cfg) } ∧
    _normalizeData cfg .undefv
      = .ok { text := .str "", align := .str (userDefaultAlignType cfg) } ∧
    _normalizeData cfg (.boolv b)
      = .ok { text := .str "", align := .str (userDefaultAlignType cfg) } ∧
    _normalizeData cfg (.num n)
      = .ok { text := .str "", align := .str (userDefaultAlignType cfg) } ∧
    _normalizeData cfg (.str s)
      = .ok { text := .str "", align := .str (userDefaultAlignType cfg) } ∧
    _normalizeData cfg .nullv = .error () :=
  ⟨rfl, rfl, rfl, rfl, rfl, rfl⟩

/-- C7 counterexample: malformed inputs can abort with an exception. A null
construction input makes normalization throw a TypeError (typeof null is
the string object, so null survives the non-object guard and its fields are
then read), and with preserveBlank at its default false, validate throws on
a saved record lacking a text field as well as on a non-record saved
value. -/
theorem c7_counterexample :
    _normalizeData {} .nullv = .error () ∧
    userPreserveBlank {} = false ∧
    validate {} (.obj .undefv .undefv) = .error () ∧
    validate {} .undefv = .error () :=
  ⟨rfl, rfl, rfl, rfl⟩

/-- C7 amended: construction inputs that are records or whose typeof is not
object (undefined, booleans, numbers, strings) normalize without an
exception, validate never throws when preserveBlank is true, and validate
never throws on a saved record whose text field is a string; but null
construction data, and — with preserveBlank false — saved data that is not
a record or whose text field is not a string, throw a TypeError. -/
theorem c7_no_throw_amended (cfg : Config) (t a sd : JSVal) (b : Bool) (n : Int)
    (s txt : String) :
    (_normalizeData cfg (.obj t a)).isOk = true ∧
    (_normalizeData cfg .undefv).isOk = true ∧
    (_normalizeData cfg (.boolv b)).isOk = true ∧
    (_normalizeData cfg (.num n)).isOk = true ∧
    (_normalizeData cfg (.str s)).isOk = true ∧
    validate { alignTypes := cfg.alignTypes, defaultAlignType := cfg.defaultAlignType,
               preserveBlank := true } sd = .ok true ∧
    (validate cfg (.obj (.str txt) a)).isOk = true := by
  refine ⟨rfl, rfl, rfl, rfl, rfl, rfl, ?_⟩
  obtain ⟨ats, d, pb⟩ := cfg
  cases pb
  · rfl
  · rfl

/-- C8: validation for persistence. With preserveBlank false, a saved
record whose text field is the string s validates exactly when s with
leading and trailing whitespace removed is nonempty (the trim affects only
the check; validate returns a Boolean and leaves the saved record
untouched); with preserveBlank true, every saved value validates; and the
whitespace-only text of three spaces fails validation when preserveBlank is
false. -/
theorem c8_validate_rule (ats : Option (List String)) (d : Option String)
    (s : String) (a sd : JSVal) :
    (validate { alignTypes := ats, defaultAlignType := d, preserveBlank := false }
        (.obj (.str s) a) = .ok true ↔ trimJS s ≠ "") ∧
    validate { alignTypes := ats, defaultAlignType := d, preserveBlank := true } sd
      = .ok true ∧
    validate { alignTypes := none, defaultAlignType := none, preserveBlank := false }
      (.obj (.str "   ") .undefv) = .ok false := by
  refine ⟨?_, rfl, rfl⟩
  show (Except.ok (trimJS s != "") : Except Unit Bool) = .ok true ↔ trimJS s ≠ ""
  constructor
  · intro h
    have hb : (trimJS s != "") = true := by injection h
    simpa using hb
  · intro h
    have hb : (trimJS s != "") = true := by simpa using h
    rw [hb]

/-- C9: the align field is stable under the round trip of normalize, save,
normalize whenever the raw align value is already a member of the effective
allowed-types set. -/
theorem c9_align_roundtrip (cfg : Config) (t : JSVal) (a html : String)
    (h : a ∈ availableAlignTypes cfg) :
    alignRoundTrip cfg t a html = .ok (.str a) := by
  have hcanon : a ∈ ALIGN_TYPES := mem_availableAlignTypes_mem_canon h
  have hne : a ≠ "" := mem_ALIGN_TYPES_ne_empty hcanon
  have htr : truthy (.str a) = true := by simp [truthy, hne]
  have hcur : currentAlignType cfg (.str a) = a := by
    rw [currentAlignType_str, if_pos h]
  simp only [alignRoundTrip, normalizeData_obj, except_bind_ok, save]
  simp [htr, hcur]
  rfl

/-- C9 witness at the empty configuration with raw align center. -/
theorem c9_align_roundtrip_witness :
    "center" ∈ availableAlignTypes {} ∧
    alignRoundTrip {} .undefv "center" "x" = .ok (.str "center") :=
  ⟨by decide, c9_align_roundtrip {} .undefv "center" "x" (by decide)⟩

/-- C10: for every configuration (including ones with an empty or
left-excluding intersection) and every stored align value (including
arbitrary strings and non-strings), the current alignment is a member of
the canonical universe, and consequently exactly one settings-menu entry
has isActive true. -/
theorem c10_current_total (cfg : Config) (dataAlign : JSVal) :
    currentAlignType cfg dataAlign ∈ ALIGN_TYPES ∧
    ((renderSettings cfg dataAlign).filter (fun e => e.isActive)).length = 1 := by
  refine ⟨currentAlignType_mem cfg dataAlign, ?_⟩
  have h := currentAlignType_mem cfg dataAlign
  simp only [ALIGN_TYPES, List.mem_cons, List.not_mem_nil, or_false] at h
  rcases h with h | h | h | h <;>
    simp only [renderSettings] <;> rw [h] <;> decide

end EditorjsParagraph
